import Mathlib

/-!
# Verification of the OWID signing core (SWAN-community/owid-go)

A shallow embedding of the OWID value type, its binary and JSON codecs, the
multi-key `Signer`, the registration handler validation and the local store
cache, translated from the Go sources.  Machine bytes are modelled as `Nat`
values below 256, buffers as `List Nat`, fallible Go functions as
`Except String`, and instants (`time.Time`) as `Int` minutes relative to the
2020-01-01 UTC epoch (`common.IoDateBase`); OWID timestamps are quantized to
whole minutes by the code itself, and all time comparisons made by the
embedded functions happen at whole-minute granularity.

The cryptographic primitives (`SignByteArray`, `VerifyByteArray`,
`NewCryptoSignOnly`, `NewCryptoVerifyOnly`) are abstracted as function
parameters: the embedded control flow is exactly that of the Go code, while
the byte-level crypto outcome is supplied by the caller of each theorem.
-/

namespace OwidGo

/-! ## Byte-stream primitives

The low-level readers and writers used by the OWID codec live in the external
`SWAN-community/common-go` library.  The definitions in this section are
modelled from the spec, §4.1: integers are little-endian; strings are
null-terminated and a write fails on an embedded null; the timestamp is a u32
of minutes since the 2020-01-01 UTC epoch; `ReadByteArrayNoLength` reads an
exact number of bytes with no length prefix.
-/

/-- Modelled from the spec: `common.WriteByte` appends a single byte. -/
def writeByte (b : Nat) : List Nat := [b]

/-- Modelled from the spec: `common.ReadByte` takes the next byte of the
buffer, failing when the buffer is exhausted. -/
def readByte : List Nat → Except String (Nat × List Nat)
  | [] => .error "bytes incorrect for Byte"
  | b :: rest => .ok (b, rest)

/-- Modelled from the spec: `common.WriteString` writes the UTF-8 bytes of the
string followed by a null terminator, failing if the string contains an
embedded null. -/
def writeString (s : List Nat) : Except String (List Nat) :=
  if 0 ∈ s then .error "string contains embedded null" else .ok (s ++ [0])

/-- Modelled from the spec: `common.ReadString` reads bytes up to and
including the next null terminator, failing when no terminator is found. -/
def readString : List Nat → Except String (List Nat × List Nat)
  | [] => .error "string terminator missing"
  | b :: rest =>
    if b = 0 then .ok ([], rest)
    else do
      let (s, r) ← readString rest
      .ok (b :: s, r)

/-- Modelled from the spec: `common.WriteUint32` writes a u32 little-endian. -/
def writeUint32 (n : Nat) : List Nat :=
  [n % 256, n / 256 % 256, n / 65536 % 256, n / 16777216 % 256]

/-- Modelled from the spec: `common.ReadUint32` reads a u32 little-endian. -/
def readUint32 : List Nat → Except String (Nat × List Nat)
  | b0 :: b1 :: b2 :: b3 :: rest =>
    .ok (b0 + 256 * b1 + 65536 * b2 + 16777216 * b3, rest)
  | _ => .error "bytes incorrect for Uint32"

/-- Minutes from the Go zero `time.Time` (0001-01-01 UTC) to the
2020-01-01 UTC epoch `common.IoDateBase`; the zero value of an `OWID`'s
timestamp field sits this far before the epoch. -/
def goTimeZeroMinutes : Int := -1061890560

/-- Modelled from the spec: `common.GetDateInMinutes` converts an instant to
the u32 count of minutes since the 2020-01-01 UTC epoch (a Go `uint32`
conversion, so the value wraps modulo 2^32). -/
def getDateInMinutes (t : Int) : Nat := (t % 4294967296).toNat

/-- Modelled from the spec: `common.WriteDateToUInt32` writes the timestamp
as a u32 little-endian count of minutes since the epoch. -/
def writeDateToUInt32 (t : Int) : List Nat := writeUint32 (getDateInMinutes t)

/-- Modelled from the spec: `common.ReadDateFromUInt32` reads a u32
little-endian count of minutes since the epoch. -/
def readDateFromUInt32 (b : List Nat) : Except String (Int × List Nat) := do
  let (m, rest) ← readUint32 b
  .ok ((m : Int), rest)

/-- The exact length of an OWID signature in bytes (`signatureLength`). -/
def signatureLength : Nat := 64

/-- Go `readSignature` reads exactly 64 bytes with no length prefix
(`common.ReadByteArrayNoLength`), failing when fewer remain. -/
def readSignature (b : List Nat) : Except String (List Nat × List Nat) :=
  if signatureLength ≤ b.length then .ok (b.take signatureLength, b.drop signatureLength)
  else .error "signature length not compatible with OWID signature length"

/-- Go `writeSignature` fails unless the signature is exactly 64 bytes, then
appends it with no length prefix. -/
def writeSignature (v : List Nat) : Except String (List Nat) :=
  if v.length = signatureLength then .ok v
  else .error "provided signature length not compatible with OWID signature length"

/-! ## OWID value type (`owid.go`) -/

/-- Version byte for an empty OWID marker (`owidEmpty`). -/
def owidEmpty : Nat := 0

/-- Version byte of the only non-empty OWID format (`owidVersion1`). -/
def owidVersion1 : Nat := 1

/-- The OWID versions that are supported (`owidVersions`). -/
def owidVersionsList : List Nat := [owidVersion1]

deriving instance DecidableEq for Except

/-- The outcome of the target's `MarshalOwid()` call.  `Target` is a
`Marshaler` supplied by the caller; the embedding records only the byte
sequence (or error) its `MarshalOwid` produces. -/
abbrev Target := Except String (List Nat)

/-- The `OWID` structure: version byte, creator domain (UTF-8 bytes),
creation time to the nearest minute, signature bytes (`none` models a Go nil
slice) and the transient target. -/
structure OWID where
  version : Nat
  domain : List Nat
  timeStamp : Int
  signature : Option (List Nat)
  target : Target
  deriving DecidableEq

/-- Go `GetTimeStampInMinutes` returns the creation date as minutes since the
`common.IoDateBase` epoch. -/
def OWID.GetTimeStampInMinutes (o : OWID) : Nat := getDateInMinutes o.timeStamp

/-- Go `Validate` checks the OWID data structure: signature present, domain
non-empty, timestamp not before the 2020 epoch, version supported. -/
def OWID.Validate (o : OWID) : Except String Unit :=
  if o.signature = none then .error "signature missing"
  else if o.domain = [] then .error "domain missing"
  else if o.timeStamp < 0 then .error "date older than base date"
  else if owidVersionsList.contains o.version then .ok ()
  else .error "version invalid"

/-- The crypto handle produced by `NewCryptoSignOnly` / `NewCryptoVerifyOnly`:
the embedded code passes byte sequences to these two operations and branches
on their outcome exactly as the Go code does; the ECDSA computation itself is
abstracted. -/
structure Crypto where
  signBytes : List Nat → Except String (List Nat)
  verifyBytes : List Nat → List Nat → Except String Bool

/-- Go `OWID.Sign` marshals the target and stores the signature produced by
`crypto.SignByteArray` over those bytes.  (It touches no other field.) -/
def OWID.Sign (o : OWID) (crypto : Crypto) : Except String OWID := do
  let d ← o.target
  let sig ← crypto.signBytes d
  .ok { o with signature := some sig }

/-- Go `VerifyWithCrypto` marshals the target and checks the stored signature
against those bytes (a Go nil signature is passed as the empty byte slice). -/
def OWID.VerifyWithCrypto (o : OWID) (crypto : Crypto) : Except String Bool := do
  let d ← o.target
  crypto.verifyBytes d (o.signature.getD [])

/-! ## Binary codec (`owid.go`, §4.1) -/

/-- Go `toBufferNoSignature` writes version byte, null-terminated domain and
u32 minute timestamp. -/
def OWID.toBufferNoSignature (o : OWID) : Except String (List Nat) := do
  let s ← writeString o.domain
  .ok (writeByte o.version ++ s ++ writeDateToUInt32 o.timeStamp)

/-- Go `ToBuffer` appends the OWID: header fields then the 64 signature bytes. -/
def OWID.ToBuffer (o : OWID) : Except String (List Nat) := do
  let h ← o.toBufferNoSignature
  let sig ← writeSignature (o.signature.getD [])
  .ok (h ++ sig)

/-- Go `MarshalBinary` returns the OWID as a byte array. -/
def OWID.MarshalBinary (o : OWID) : Except String (List Nat) := o.ToBuffer

/-- The zero-valued `OWID` allocated by `FromBuffer`/`FromByteArray` before
decoding (`&OWID{Target: target}`): every field at its Go zero value. -/
def emptyOwid (target : Target) : OWID :=
  { version := 0
    domain := []
    timeStamp := goTimeZeroMinutes
    signature := none
    target := target }

/-- Go `fromBufferV1` populates domain, timestamp and signature from the buffer. -/
def fromBufferV1 (b : List Nat) (o : OWID) : Except String (OWID × List Nat) := do
  let (d, r1) ← readString b
  let (t, r2) ← readDateFromUInt32 r1
  let (sig, r3) ← readSignature r2
  .ok ({ o with domain := d, timeStamp := t, signature := some sig }, r3)

/-- Go `FromBuffer` reads the version byte; version 0 returns immediately,
version 1 decodes the remaining fields, anything else is an error. -/
def OWID.FromBuffer (o : OWID) (b : List Nat) : Except String (OWID × List Nat) := do
  let (v, rest) ← readByte b
  let o1 := { o with version := v }
  if v = owidEmpty then .ok (o1, rest)
  else if v = owidVersion1 then fromBufferV1 rest o1
  else .error "version not supported"

/-- Go `FromByteArray` decodes a single OWID from the byte array, starting from
a freshly allocated OWID holding the supplied target. -/
def FromByteArray (data : List Nat) (target : Target) : Except String (OWID × List Nat) :=
  (emptyOwid target).FromBuffer data

/-- Go `compare` checks version, domain, minute-quantized timestamp and
signature bytes (`bytes.Equal` treats a nil slice like an empty one). -/
def OWID.compare (o other : OWID) : Bool :=
  o.version == other.version &&
  o.domain == other.domain &&
  o.GetTimeStampInMinutes == other.GetTimeStampInMinutes &&
  o.signature.getD [] == other.signature.getD []

/-! ## Keys and Signer (`keys.go`, `signer.go`) -/

/-- A `Keys` record: PEM-encoded private and public keys and the creation
instant (minutes relative to the 2020 epoch). -/
structure Keys where
  privateKey : String
  publicKey : String
  created : Int
  deriving DecidableEq

/-- A `PublicKey` record of a `SignerPublic`: the PEM public key and the
creation instant. -/
structure PublicKey where
  key : String
  created : Int
  deriving DecidableEq

/-- The `Signer` of Open Web Ids.  The lazily-cached `current` field is a
memoization of `currentKeys` and is omitted: the embedding always computes it
from the key list, which is what the Go code does on a cold cache. -/
structure Signer where
  domain : List Nat
  name : List Nat
  termsURL : List Nat
  keys : List Keys
  deriving DecidableEq

/-- The `SignerPublic` projection used by external verifiers. -/
structure SignerPublic where
  domain : List Nat
  name : List Nat
  termsURL : List Nat
  publicKeys : List PublicKey
  deriving DecidableEq

/-- Go `currentKeys` scans the key list for the maximum `created`
(`c.Created.Before(k.Created)` — a strictly later key replaces the
candidate), failing when the signer holds no keys. -/
def Signer.currentKeys (s : Signer) : Except String Keys :=
  match s.keys.foldl
      (fun c k =>
        match c with
        | none => some k
        | some c' => if c'.created < k.created then some k else some c')
      none with
  | some k => .ok k
  | none => .error "signer contains no keys"

/-- Go `Signer.Sign` obtains a sign-only crypto handle for the current key
(`mkSignOnly` abstracts `Keys.NewCryptoSignOnly`, which can fail on a
malformed PEM), overwrites the OWID's version and domain, and delegates to
`OWID.Sign`. -/
def Signer.Sign (s : Signer) (owid : OWID)
    (mkSignOnly : Keys → Except String Crypto) : Except String OWID := do
  let k ← s.currentKeys
  let c ← mkSignOnly k
  let o1 := { owid with version := owidVersion1, domain := s.domain }
  o1.Sign c

/-- Go `CreateOWIDandSign` builds a fresh OWID holding the marshaller and signs
it (`&OWID{Target: m}` leaves every other field at its zero value). -/
def Signer.CreateOWIDandSign (s : Signer) (m : Target)
    (mkSignOnly : Keys → Except String Crypto) : Except String OWID :=
  s.Sign (emptyOwid m) mkSignOnly

/-- Go `verifyDomains` compares the signer's and the OWID's domains with
`strings.EqualFold`; the domains in play are ASCII hostnames, so the fold is
modelled as ASCII case insensitivity. -/
def asciiLower (b : Nat) : Nat := if 65 ≤ b ∧ b ≤ 90 then b + 32 else b

/-- Go `strings.EqualFold` on ASCII byte strings. -/
def equalFold (a b : List Nat) : Bool := a.map asciiLower == b.map asciiLower

/-- The error message of `verifyDomains` for mismatching domains. -/
def domainMismatch : String := "cannot use signer with OWID"

/-- Go `verifyDomains` checks that the signer and OWID domains match and
returns a domain-mismatch error when they do not. -/
def verifyDomains (s : List Nat) (o : OWID) : Except String Unit :=
  if equalFold s o.domain then .ok () else .error domainMismatch

/-- Modelled from the spec: `OWID.getTimeStampWithTolerance` (absent from
the sources; only its call sites in `Signer.Verify` and
`SignerPublic.Verify` survive) computes "a verification tolerance window
equal to one hour before `owid.timestamp`" (§4.4), so the tolerance added to
the timestamp is minus sixty minutes. -/
def verifyToleranceMinutes : Int := -60

/-- Modelled from the spec: the OWID timestamp with the verification
tolerance applied; keys created strictly after this instant are skipped. -/
def OWID.getTimeStampWithTolerance (o : OWID) : Int :=
  o.timeStamp + verifyToleranceMinutes

/-- The key-trial loop shared by `Signer.Verify` and `SignerPublic.Verify`:
`for i := len(keys) - 1; i >= 0; i--`.  The argument `n` is one past the
next index to visit, so the loop starts at `n = keys.length` and walks the
array from its last element to its first.  A key created strictly after `b`
is skipped; otherwise `vf` (the per-key crypto outcome: build the verify
handle, marshal, ECDSA verify) is consulted — an error aborts, `true`
succeeds, `false` advances. -/
def verifyKeysFrom {α : Type} (created : α → Int) (keys : List α) (b : Int)
    (vf : α → Except String Bool) : Nat → Except String Bool
  | 0 => .ok false
  | n + 1 =>
    match keys[n]? with
    | none => verifyKeysFrom created keys b vf n
    | some k =>
      if b < created k then verifyKeysFrom created keys b vf n
      else
        match vf k with
        | .error e => .error e
        | .ok true => .ok true
        | .ok false => verifyKeysFrom created keys b vf n

/-- Go `Signer.Verify`: domain check, then the key-trial loop over `s.Keys`
from the last array element to the first. -/
def Signer.Verify (s : Signer) (owid : OWID)
    (vf : Keys → Except String Bool) : Except String Bool :=
  match verifyDomains s.domain owid with
  | .error e => .error e
  | .ok _ =>
    verifyKeysFrom Keys.created s.keys owid.getTimeStampWithTolerance vf s.keys.length

/-- Go `SignerPublic.Verify`: the same control flow over the public keys. -/
def SignerPublic.Verify (s : SignerPublic) (owid : OWID)
    (vf : PublicKey → Except String Bool) : Except String Bool :=
  match verifyDomains s.domain owid with
  | .error e => .error e
  | .ok _ =>
    verifyKeysFrom PublicKey.created s.publicKeys owid.getTimeStampWithTolerance vf
      s.publicKeys.length

/-- The key-trial order written in the spec and in claim C3: walk the given
list front to back, skipping keys created strictly after `b`, aborting on a
crypto error and succeeding at the first `true`.  Applied to the key array
itself this is the claim's newest-to-oldest trial (the array is sorted
newest first); applied to the reversed array it describes what the code
does. -/
def tryKeysInOrder {α : Type} (created : α → Int) (b : Int)
    (vf : α → Except String Bool) : List α → Except String Bool
  | [] => .ok false
  | k :: rest =>
    if b < created k then tryKeysInOrder created b vf rest
    else
      match vf k with
      | .error e => .error e
      | .ok true => .ok true
      | .ok false => tryKeysInOrder created b vf rest

/-! ## JSON codec (`owid.go` `UnmarshalJSON`)

The Go code first unmarshals into a `map[string]interface{}` and then reads
each field with a type assertion (`float64` for numbers, `string` for
strings).  The embedding starts from that already-parsed map, restricted to
the four field names the code looks at. -/

/-- A parsed JSON value as the Go type assertions see it. -/
inductive JVal where
  | num (n : Int)
  | str (s : List Nat)
  | other
  deriving DecidableEq

/-- The parsed JSON object: each field of interest is present or absent. -/
structure JsonMap where
  version : Option JVal
  domain : Option JVal
  signature : Option JVal
  timestamp : Option JVal
  deriving DecidableEq

/-- Go's `byte(v)` conversion of a JSON number. -/
def byteCast (n : Int) : Nat := (n % 256).toNat

/-- Go's `uint32(t)` conversion of a JSON number. -/
def uint32Cast (n : Int) : Nat := (n % 4294967296).toNat

/-- A Go type assertion `m[k].(string)`: succeeds exactly when the field is
present as a JSON string, otherwise the given "missing" error. -/
def requireStr (v : Option JVal) (msg : String) : Except String (List Nat) :=
  match v with
  | some (.str s) => .ok s
  | _ => .error msg

/-- A Go type assertion `m[k].(float64)`: succeeds exactly when the field is
present as a JSON number, otherwise the given "missing" error. -/
def requireNum (v : Option JVal) (msg : String) : Except String Int :=
  match v with
  | some (.num n) => .ok n
  | _ => .error msg

/-- The OWID assembled by `UnmarshalJSON` before re-validation. -/
def owidOfJson (ver : Nat) (d : List Nat) (tm : Int) (sig : List Nat)
    (target : Target) : OWID :=
  { version := ver, domain := d, timeStamp := (uint32Cast tm : Int),
    signature := some sig, target := target }

/-- The field-reading part of `UnmarshalJSON`, after the version byte `ver`
has been determined: domain, signature and timestamp must be present with
the right JSON type or the unmarshal fails; the signature string passes
through base-64 decoding (`b64`, abstracting
`base64.StdEncoding.DecodeString`); the assembled OWID is re-validated
before being returned. -/
def unmarshalOwidFields (ver : Nat) (j : JsonMap)
    (b64 : List Nat → Except String (List Nat)) (target : Target) :
    Except String OWID := do
  let d ← requireStr j.domain "domain missing"
  let s ← requireStr j.signature "signature missing"
  let sig ← b64 s
  let tm ← requireNum j.timestamp "timestamp missing"
  match (owidOfJson ver d tm sig target).Validate with
  | .error e => .error e
  | .ok _ => .ok (owidOfJson ver d tm sig target)

/-- Go `UnmarshalJSON`: the version is read first — defaulting to 1 unless the
field is present as a number — and the remaining fields follow
`unmarshalOwidFields`. -/
def OWID.UnmarshalJSON (j : JsonMap) (b64 : List Nat → Except String (List Nat))
    (target : Target) : Except String OWID :=
  unmarshalOwidFields
    (match j.version with
     | some (.num n) => byteCast n
     | _ => owidVersion1) j b64 target

/-! ## Registration handler (`handlerRegister.go`) -/

/-- The minimum length of the organization name for the signer. -/
def minNameLength : Nat := 5

/-- The maximum length of the organization name for the signer. -/
def maxNameLength : Nat := 40

/-- The maximum length of the terms URL for the signer. -/
def maxTermsURLLength : Nat := 250

/-- Message shown when the name fails the length check
("Name must be between 5 and 40 characters"). -/
def nameLengthMessage : String := "Name must be between 5 and 40 characters"

/-- Message shown when the terms URL is too long. -/
def termsLengthMessage : String := "Terms URL maximum length 250"

/-- Message shown when the terms URL does not parse. -/
def termsInvalidMessage : String := "Terms URL is invalid"

/-- The store's signer map, keyed on domain (`storeBase.signers`). -/
abbrev SignerMap := List (List Nat × Signer)

/-- Go `storeBase.getSigner`: Go map indexing, nil when absent. -/
def getSignerInMap (m : SignerMap) (domain : List Nat) : Option Signer :=
  (m.find? (fun kv => kv.1 = domain)).map Prod.snd

/-- Go `newSigner` validates its inputs: domain, name and termsURL must be
non-empty (the terms URL was already parsed by the handler) and a key pair
must be supplied (the handler always passes one, so that branch cannot be
reached from `registerNewSigner`). -/
def newSigner (domain name termsURL : List Nat) (keys : Keys) :
    Except String Signer :=
  if domain = [] then .error "domain needed"
  else if name = [] then .error "name needed"
  else if termsURL = [] then .error "termsURL needed"
  else .ok { domain := domain, name := name, termsURL := termsURL, keys := [keys] }

/-- The fields of the `Register` template model that the handler fills in. -/
structure RegisterState where
  name : List Nat
  nameError : Option String
  termsURL : List Nat
  termsError : Option String
  readOnly : Bool
  deriving DecidableEq

/-- The handler's outcome: either the domain was already registered (an
application error is returned before any form validation), or the HTML page
is rendered from the template model. -/
inductive RegisterResult where
  | alreadyRegistered (domain : List Nat)
  | page (m : RegisterState)
  deriving DecidableEq

/-- Go `registerNewSigner` generates keys (`newK` abstracts `newKeys()`),
builds the signer and adds it to the store, marking the form read-only on
success. -/
def registerNewSigner (store : SignerMap) (host name termsURL : List Nat)
    (newK : Keys) : Except String SignerMap := do
  let g ← newSigner host name termsURL newK
  .ok ((host, g) :: store)

/-- Go `HandlerRegister`: reject an already-registered host; validate the name
length (`len(m.Name) <= minNameLength || len(m.Name) > maxNameLength`) and
the terms URL (length cap, then `url.ParseRequestURI`, abstracted by
`parseURI`); store the new signer only when both validations pass. -/
def HandlerRegister (store : SignerMap) (host formName formTerms : List Nat)
    (parseURI : List Nat → Option (List Nat)) (newK : Keys) :
    RegisterResult × SignerMap :=
  match getSignerInMap store host with
  | some g => (.alreadyRegistered g.domain, store)
  | none =>
    let nameError : Option String :=
      if formName.length ≤ minNameLength ∨ maxNameLength < formName.length then
        some nameLengthMessage
      else none
    let (termsError, termsURL) : Option String × List Nat :=
      if maxTermsURLLength < formTerms.length then (some termsLengthMessage, [])
      else
        match parseURI formTerms with
        | none => (some termsInvalidMessage, [])
        | some u => (none, u)
    if nameError = none ∧ termsError = none then
      match registerNewSigner store host formName termsURL newK with
      | .error _ =>
        (.page { name := formName, nameError := nameError, termsURL := termsURL,
                 termsError := termsError, readOnly := false }, store)
      | .ok store' =>
        (.page { name := formName, nameError := nameError, termsURL := termsURL,
                 termsError := termsError, readOnly := true }, store')
    else
      (.page { name := formName, nameError := nameError, termsURL := termsURL,
               termsError := termsError, readOnly := false }, store)

/-! ## Local store cache (`local.go`, `common`/`storeBase`) -/

/-- A `Creator` record held by the legacy store cache. -/
structure Creator where
  domain : List Nat
  privateKey : String
  publicKey : String
  name : List Nat
  deriving DecidableEq

/-- The creators map of the shared in-memory base. -/
abbrev CreatorMap := List (List Nat × Creator)

/-- Go `common.getCreator`: Go map indexing, nil when absent. -/
def getCreator (m : CreatorMap) (domain : List Nat) : Option Creator :=
  (m.find? (fun kv => kv.1 = domain)).map Prod.snd

/-- Go `Local.GetCreator`: look the domain up in the cache; on a miss run
`refresh()` (replace the cache with the freshly fetched map, which can fail)
and look it up once more.  The second component counts the `refresh()` calls
performed, instrumenting the retry so that "exactly once" is visible in the
result. -/
def localGetCreator (cache : CreatorMap) (fetch : Except String CreatorMap)
    (domain : List Nat) : Except String (Option Creator) × Nat :=
  match getCreator cache domain with
  | some c => (.ok (some c), 0)
  | none =>
    match fetch with
    | .error e => (.error e, 1)
    | .ok m => (.ok (getCreator m domain), 1)

/-! ## ECDSA P-256 signature format

Modelled from the spec: the current `Crypto` implementation
(`NewCrypto` generating a P-256 key pair and `SignByteArray` /
`VerifyByteArray`) is absent from the sources — only its callers
(`owid.go`, `signer.go`, `keys.go`) and its tests survive, while the
`crypto.go` present is an earlier RSA-based revision that none of the
current callers reference.  Per §4.2: key pairs live on the NIST P-256
curve; signing takes the SHA-256 digest of the input, runs ECDSA and
serializes the two scalars as 32-byte big-endian `r ∥ s`, left-padding each
with zeros to exactly 32 bytes.  The field and group arithmetic of ECDSA is
abstracted as a function producing the two scalars, which ECDSA always
reduces modulo the group order `n`; the curve constants and the
serialization are concrete. -/

/-- The NIST P-256 field prime. -/
def p256p : Nat :=
  115792089210356248762697446949407573530086143415290314195533631308867097853951

/-- The NIST P-256 group order. -/
def p256n : Nat :=
  115792089210356248762697446949407573529996955224135760342422259061068512044369

/-- The NIST P-256 curve coefficient `b` (the coefficient `a` is `-3`). -/
def p256b : Nat :=
  41058363725152142129326129780047268409114441015993725554835256314039467401291

/-- x-coordinate of the P-256 base point. -/
def p256Gx : Nat :=
  48439561293906451759052585252797914202762949526041747995844080717082404635286

/-- y-coordinate of the P-256 base point. -/
def p256Gy : Nat :=
  36134250956749795798585127919587881956611106672985015071877198253568414405109

/-- Membership on the P-256 curve: `y² = x³ − 3x + b` over the field of
`p256p` elements (the `−3x` term written as `(p − 3)·x`). -/
def p256OnCurve (x y : Nat) : Bool :=
  (y * y) % p256p = (x * x * x + (p256p - 3) * x + p256b) % p256p

/-- Big-endian byte serialization of a natural number, left-padded with
zeros to exactly `k` bytes. -/
def natToBE : Nat → Nat → List Nat
  | 0, _ => []
  | k + 1, m => natToBE k (m / 256) ++ [m % 256]

/-- Big-endian byte-sequence value. -/
def fromBE (bs : List Nat) : Nat := bs.foldl (fun acc b => acc * 256 + b) 0

/-- Modelled from the spec: the signature serialization of `SignByteArray` —
32-byte big-endian `r` followed by 32-byte big-endian `s`, each left-padded
with zeros to exactly 32 bytes. -/
def ecdsaSerializeSignature (r s : Nat) : List Nat := natToBE 32 r ++ natToBE 32 s

/-- Modelled from the spec: `Crypto.SignByteArray` computes the SHA-256
digest of the input and signs it with ECDSA over P-256 — `ecdsa` abstracts
that computation, returning the scalar pair `(r, s)`, which ECDSA reduces
modulo the group order — then serializes the pair as `r ∥ s`. -/
def cryptoSignByteArray (ecdsa : List Nat → Nat × Nat) (data : List Nat) : List Nat :=
  ecdsaSerializeSignature (ecdsa data).1 (ecdsa data).2

/-! ## Concrete instances used by counterexamples and witnesses -/

/-- A key created at minute 0 (the older key of the C3 scenario). -/
def c3KeyOld : Keys := { privateKey := "pOld", publicKey := "qOld", created := 0 }

/-- A key created at minute 10 (the newer key of the C3 scenario). -/
def c3KeyNew : Keys := { privateKey := "pNew", publicKey := "qNew", created := 10 }

/-- A signer whose key array is sorted newest-first, as `SortKeys` and the
stores maintain it. -/
def c3Signer : Signer :=
  { domain := [97], name := [110, 97, 109, 101, 115, 120], termsURL := [104],
    keys := [c3KeyNew, c3KeyOld] }

/-- An OWID at minute 100, far inside both keys' tolerance window. -/
def c3Owid : OWID :=
  { version := 1, domain := [97], timeStamp := 100,
    signature := some (List.replicate 64 1), target := .ok [1] }

/-- A per-key crypto outcome: the newer key's verify handle fails to build,
the older key verifies the signature. -/
def c3vf : Keys → Except String Bool :=
  fun k => if k.created = 10 then .error "malformed key" else .ok true

/-- A signer for domain `"a"`. -/
def c4Signer : Signer :=
  { domain := [97], name := [110, 97, 109, 101, 115, 120], termsURL := [104],
    keys := [c3KeyOld] }

/-- The public projection of a signer for domain `"a"`. -/
def c4Public : SignerPublic :=
  { domain := [97], name := [110, 97, 109, 101, 115, 120], termsURL := [104],
    publicKeys := [{ key := "qOld", created := 0 }] }

/-- An OWID for the foreign domain `"b"`. -/
def c4OwidOther : OWID :=
  { version := 1, domain := [98], timeStamp := 100,
    signature := some (List.replicate 64 1), target := .ok [1] }

/-- An OWID for domain `"A"`, equal to `"a"` ignoring case. -/
def c4OwidFold : OWID :=
  { version := 1, domain := [65], timeStamp := 100,
    signature := some (List.replicate 64 1), target := .ok [1] }

/-- A per-key crypto outcome that always fails with a PEM error. -/
def c4vfErr : Keys → Except String Bool := fun _ => .error "pem broken"

/-- A per-public-key crypto outcome that always fails with a PEM error. -/
def c4vgErr : PublicKey → Except String Bool := fun _ => .error "pem broken"

/-- A creator record for the C9 store scenarios. -/
def c9Creator : Creator :=
  { domain := [97], privateKey := "p", publicKey := "q", name := [110] }

/-- A signer for domain `"a"` holding one key. -/
def c10Signer : Signer :=
  { domain := [97], name := [110, 97, 109, 101, 115, 120], termsURL := [104],
    keys := [c3KeyOld] }

/-- An OWID that carried version 9 and the foreign domain `"z"` before
re-signing. -/
def c10Owid : OWID :=
  { version := 9, domain := [122], timeStamp := 7, signature := none,
    target := .ok [5] }

/-- A sign-only handle builder whose `SignByteArray` echoes the bytes it was
given, exposing the signed byte sequence as the stored signature. -/
def c10mk : Keys → Except String Crypto :=
  fun _ => .ok { signBytes := fun d => .ok d, verifyBytes := fun _ _ => .ok true }

/-- The OWID produced by the C10 signing scenario. -/
def c10Signed : OWID :=
  { version := owidVersion1, domain := [97], timeStamp := 7,
    signature := some [5], target := .ok [5] }

/-- A key for the C1 signing scenario. -/
def c1Key : Keys := { privateKey := "p1", publicKey := "q1", created := 3 }

/-- A signer for domain `"x"` holding one key. -/
def c1Signer : Signer :=
  { domain := [120], name := [110, 97, 109, 101, 115, 120], termsURL := [104],
    keys := [c1Key] }

/-- An OWID whose timestamp is minute 7 and whose target marshals to
`[5, 6]` without error. -/
def c1Owid : OWID :=
  { version := 1, domain := [120], timeStamp := 7, signature := none,
    target := .ok [5, 6] }

/-- A sign-only handle builder whose `SignByteArray` echoes its input, so
the stored signature reveals exactly which byte sequence was signed. -/
def c1mk : Keys → Except String Crypto :=
  fun _ => .ok { signBytes := fun d => .ok d, verifyBytes := fun _ _ => .ok true }

/-- A key pair for the C8 registration scenarios (abstracting `newKeys()`). -/
def c8Key : Keys := { privateKey := "p8", publicKey := "q8", created := 0 }

/-- A `url.ParseRequestURI` outcome that accepts every URL unchanged. -/
def c8ParseURI : List Nat → Option (List Nat) := fun u => some u

/-- The registering host `"host"`. -/
def c8Host : List Nat := [104, 111, 115, 116]

/-- A short, valid terms URL value. -/
def c8Terms : List Nat := [104, 116]

/-- The five-character organisation name `"hello"`. -/
def c8Name5 : List Nat := [104, 101, 108, 108, 111]

/-- The two-character organisation name `"hi"`. -/
def c8NameHi : List Nat := [104, 105]

/-- The six-character organisation name `"hellos"`. -/
def c8Name6 : List Nat := [104, 101, 108, 108, 111, 115]

/-- A concrete abstract ECDSA outcome (scalar pair `(1, 2)`) for the C2
witness. -/
def c2ecdsa : List Nat → Nat × Nat := fun _ => (1, 2)

/-- A parsed JSON object missing the domain field. -/
def c6MissingDomain : JsonMap :=
  { version := none, domain := none, signature := some (.str [65]),
    timestamp := some (.num 3) }

/-- A parsed JSON object with domain, signature and timestamp present and
the version field omitted. -/
def c6Full : JsonMap :=
  { version := none, domain := some (.str [97]), signature := some (.str [65]),
    timestamp := some (.num 3) }

/-- A base-64 decoder outcome that accepts every string as its own bytes. -/
def c6b64 : List Nat → Except String (List Nat) := fun s => .ok s

/-- The OWID produced by unmarshalling `c6Full`. -/
def c6Decoded : OWID :=
  { version := owidVersion1, domain := [97], timeStamp := 3,
    signature := some [65], target := .ok [] }

/-- A 64-byte signature for the C5 round-trip witness. -/
def c5Sig : List Nat := List.replicate 64 7

/-- A signed OWID for the C5 round-trip witness. -/
def c5Owid : OWID :=
  { version := owidVersion1, domain := [97], timeStamp := 5,
    signature := some c5Sig, target := .ok [] }

/-! ## Helper lemmas about the key-trial loop -/

/-- The loop of `verifyKeysFrom` never looks at indices at or above `n`, so
a key appended behind the scanned prefix does not change the outcome. -/
theorem verifyKeysFrom_append {α : Type} (created : α → Int) (b : Int)
    (vf : α → Except String Bool) (keys : List α) (k : α) :
    ∀ n, n ≤ keys.length →
      verifyKeysFrom created (keys ++ [k]) b vf n = verifyKeysFrom created keys b vf n
  | 0, _ => rfl
  | n + 1, h => by
    have hn : n < keys.length := h
    have hget : (keys ++ [k])[n]? = keys[n]? := by
      rw [List.getElem?_append]
      simp [hn]
    have ih := verifyKeysFrom_append created b vf keys k n (Nat.le_of_lt hn)
    simp only [verifyKeysFrom, hget, ih]

/-- The backwards index loop over the whole array is the forward scan of the
reversed array. -/
theorem verifyKeysFrom_eq_reverse {α : Type} (created : α → Int) (b : Int)
    (vf : α → Except String Bool) (keys : List α) :
    verifyKeysFrom created keys b vf keys.length =
      tryKeysInOrder created b vf keys.reverse := by
  induction keys using List.reverseRecOn with
  | nil => rfl
  | append_singleton xs k ih =>
    have hlen : (xs ++ [k]).length = xs.length + 1 := by simp
    have hget : (xs ++ [k])[xs.length]? = some k := by
      rw [List.getElem?_append]
      simp
    have ha : verifyKeysFrom created (xs ++ [k]) b vf xs.length =
        verifyKeysFrom created xs b vf xs.length :=
      verifyKeysFrom_append created b vf xs k xs.length (Nat.le_refl _)
    rw [hlen]
    simp only [verifyKeysFrom, hget, ha, ih, List.reverse_append, List.reverse_cons,
      List.reverse_nil, List.nil_append, List.singleton_append, tryKeysInOrder]

/-- Every error escaping the key-trial loop is the outcome of a `vf` call on
one of the keys: the loop itself only produces `ok` results. -/
theorem verifyKeysFrom_error_mem {α : Type} (created : α → Int) (keys : List α)
    (b : Int) (vf : α → Except String Bool) :
    ∀ n e, verifyKeysFrom created keys b vf n = .error e →
      ∃ k, k ∈ keys ∧ vf k = .error e
  | 0, e, h => by simp [verifyKeysFrom] at h
  | n + 1, e, h => by
    simp only [verifyKeysFrom] at h
    split at h
    · exact verifyKeysFrom_error_mem created keys b vf n e h
    · rename_i k hg
      split at h
      · exact verifyKeysFrom_error_mem created keys b vf n e h
      · split at h
        · rename_i hv
          cases h
          have hmem : k ∈ keys := by
            obtain ⟨hlt, rfl⟩ := List.getElem?_eq_some.mp hg
            exact List.getElem_mem hlt
          exact ⟨k, hmem, hv⟩
        · exact Except.noConfusion h
        · exact verifyKeysFrom_error_mem created keys b vf n e h

/-! ## Claims -/

/-- Claim C3, counterexample: With the key array sorted newest-first (created
times `[10, 0]`), an OWID inside both keys' tolerance window, and a per-key
crypto outcome that errors on the newest key but verifies with the oldest,
`Signer.Verify` succeeds — it reached the oldest key first — while the trial
the claim describes (newest creation date to oldest, aborting on a crypto
error, succeeding at the first `true`) stops with the error.  The claim's
trial order is therefore not the code's. -/
theorem claimC3_counterexample :
    (c3Signer.keys.map Keys.created = [10, 0]) ∧
    Signer.Verify c3Signer c3Owid c3vf = .ok true ∧
    tryKeysInOrder Keys.created c3Owid.getTimeStampWithTolerance c3vf c3Signer.keys =
      .error "malformed key" := by
  refine ⟨rfl, ?_, rfl⟩
  rfl

/-- Claim C3, amended: For every signer and OWID with matching domain
(case-insensitive), `Signer.Verify` tries the keys in the order of the
reversed key array — oldest creation date first when the array is sorted
newest-first — skipping every key created strictly after the OWID timestamp
plus the tolerance, aborting on a crypto error, and terminating with success
at the first key whose cryptographic verification returns true; a mismatching
domain yields the domain-mismatch error. -/
theorem claimC3_verify_reversed_order :
    ∀ (s : Signer) (o : OWID) (vf : Keys → Except String Bool),
      Signer.Verify s o vf =
        if equalFold s.domain o.domain then
          tryKeysInOrder Keys.created o.getTimeStampWithTolerance vf s.keys.reverse
        else .error domainMismatch := by
  intro s o vf
  by_cases h : equalFold s.domain o.domain
  · simp [Signer.Verify, verifyDomains, h, verifyKeysFrom_eq_reverse]
  · simp [Signer.Verify, verifyDomains, h]

/-- Claim C4: When the signer's and the OWID's domains differ under the
case-insensitive comparison, both `Signer.Verify` and `SignerPublic.Verify`
return the domain-mismatch error — for every possible crypto outcome, so no
cryptographic verification is attempted; when the domains are equal ignoring
case, any error either verify returns originates from a crypto call on one
of the keys, so no domain-mismatch error is produced by the domain check. -/
theorem claimC4_domain_check :
    ∀ (s : Signer) (p : SignerPublic) (o : OWID) (vf : Keys → Except String Bool)
      (vg : PublicKey → Except String Bool),
      (equalFold s.domain o.domain = false →
        Signer.Verify s o vf = .error domainMismatch) ∧
      (equalFold p.domain o.domain = false →
        SignerPublic.Verify p o vg = .error domainMismatch) ∧
      (equalFold s.domain o.domain = true →
        ∀ e, Signer.Verify s o vf = .error e → ∃ k, k ∈ s.keys ∧ vf k = .error e) ∧
      (equalFold p.domain o.domain = true →
        ∀ e, SignerPublic.Verify p o vg = .error e →
          ∃ k, k ∈ p.publicKeys ∧ vg k = .error e) := by
  intro s p o vf vg
  refine ⟨fun h => ?_, fun h => ?_, fun h e he => ?_, fun h e he => ?_⟩
  · simp [Signer.Verify, verifyDomains, h]
  · simp [SignerPublic.Verify, verifyDomains, h]
  · rw [Signer.Verify, verifyDomains] at he
    rw [if_pos h] at he
    exact verifyKeysFrom_error_mem Keys.created s.keys _ vf _ e he
  · rw [SignerPublic.Verify, verifyDomains] at he
    rw [if_pos h] at he
    exact verifyKeysFrom_error_mem PublicKey.created p.publicKeys _ vg _ e he

/-- Claim C4, witness: A signer for `"a"` refusing an OWID for `"b"` with the
mismatch error, the public projection likewise, and a crypto error under
matching (case-folded `"A"` vs `"a"`) domains traced back to the key that
produced it. -/
theorem claimC4_domain_check_witness :
    Signer.Verify c4Signer c4OwidOther c4vfErr = .error domainMismatch ∧
    SignerPublic.Verify c4Public c4OwidOther c4vgErr = .error domainMismatch ∧
    (∃ k, k ∈ c4Signer.keys ∧ c4vfErr k = .error "pem broken") ∧
    (∃ k, k ∈ c4Public.publicKeys ∧ c4vgErr k = .error "pem broken") := by
  obtain ⟨h1, h2, h3, h4⟩ :=
    claimC4_domain_check c4Signer c4Public c4OwidOther c4vfErr c4vgErr
  obtain ⟨g1, g2, g3, g4⟩ :=
    claimC4_domain_check c4Signer c4Public c4OwidFold c4vfErr c4vgErr
  exact ⟨h1 (by decide), h2 (by decide),
    g3 (by decide) "pem broken" (by decide), g4 (by decide) "pem broken" (by decide)⟩

/-- Claim C7: Binary decoding rejects any version byte that is neither 0 nor
1, and for version byte 0 it returns immediately with only the version field
populated: domain, timestamp and signature keep the zero values of the
freshly allocated OWID and the rest of the buffer is left unread. -/
theorem claimC7_version_byte :
    ∀ (v : Nat) (rest : List Nat) (t : Target),
      (v ≠ owidEmpty → v ≠ owidVersion1 →
        FromByteArray (v :: rest) t = .error "version not supported") ∧
      (v = owidEmpty →
        FromByteArray (v :: rest) t =
          .ok ({ version := owidEmpty, domain := [], timeStamp := goTimeZeroMinutes,
                 signature := none, target := t }, rest)) := by
  intro v rest t
  constructor
  · intro h0 h1
    rw [owidEmpty] at h0
    rw [owidVersion1] at h1
    simp [FromByteArray, OWID.FromBuffer, readByte, emptyOwid, bind, Except.bind,
      owidEmpty, owidVersion1, h0, h1]
  · intro h
    subst h
    rfl

/-- Claim C7, witness: Version byte 2 is rejected; version byte 0 decodes to
the empty OWID leaving the remaining byte unread. -/
theorem claimC7_version_byte_witness :
    FromByteArray (2 :: [7]) (.ok []) = .error "version not supported" ∧
    FromByteArray (0 :: [7]) (.ok []) =
      .ok ({ version := owidEmpty, domain := [], timeStamp := goTimeZeroMinutes,
             signature := none, target := .ok [] }, [7]) :=
  ⟨(claimC7_version_byte 2 [7] (.ok [])).1 (by decide) (by decide),
   (claimC7_version_byte 0 [7] (.ok [])).2 rfl⟩

/-- Claim C9: `Local.GetCreator` answers directly (zero refreshes) when the
domain is cached; on a cache miss it performs `refresh()` exactly once and
retries the lookup against the freshly fetched map, concluding the signer
does not exist only when the domain is still absent from that map. -/
theorem claimC9_get_creator_retry :
    ∀ (cache : CreatorMap) (fetch : Except String CreatorMap) (d : List Nat),
      ((getCreator cache d).isSome = true →
        localGetCreator cache fetch d = (.ok (getCreator cache d), 0)) ∧
      (getCreator cache d = none →
        (localGetCreator cache fetch d).2 = 1 ∧
        ∀ m, fetch = .ok m →
          (localGetCreator cache fetch d).1 = .ok (getCreator m d)) := by
  intro cache fetch d
  constructor
  · intro h
    cases hc : getCreator cache d with
    | none => rw [hc] at h; cases h
    | some c => simp [localGetCreator, hc]
  · intro h
    cases fetch with
    | error e => exact ⟨by simp [localGetCreator, h], by intro m hm; cases hm⟩
    | ok m0 =>
      refine ⟨by simp [localGetCreator, h], ?_⟩
      intro m hm
      cases hm
      simp [localGetCreator, h]

/-- Claim C9, witness: A cache hit is answered with zero refreshes; a cache
miss refreshes once and finds the creator in the fetched map. -/
theorem claimC9_get_creator_retry_witness :
    localGetCreator [([97], c9Creator)] (.ok []) [97] = (.ok (some c9Creator), 0) ∧
    (localGetCreator [] (.ok [([98], c9Creator)]) [98]).2 = 1 ∧
    (localGetCreator [] (.ok [([98], c9Creator)]) [98]).1 =
      .ok (getCreator [([98], c9Creator)] [98]) := by
  have h1 := (claimC9_get_creator_retry [([97], c9Creator)] (.ok []) [97]).1 (by decide)
  have h2 := (claimC9_get_creator_retry [] (.ok [([98], c9Creator)]) [98]).2 rfl
  exact ⟨by rw [h1]; rfl, h2.1, h2.2 [([98], c9Creator)] rfl⟩

/-- Claim C10: Whenever `Signer.Sign` succeeds, the resulting OWID carries
version 1 and the signer's own domain, regardless of the version and domain
the OWID held before. -/
theorem claimC10_sign_sets_version_and_domain :
    ∀ (s : Signer) (o : OWID) (mk : Keys → Except String Crypto) (o' : OWID),
      Signer.Sign s o mk = .ok o' →
        o'.version = owidVersion1 ∧ o'.domain = s.domain := by
  intro s o mk o' h
  simp only [Signer.Sign, OWID.Sign, bind, Except.bind] at h
  split at h
  · exact Except.noConfusion h
  · split at h
    · exact Except.noConfusion h
    · split at h
      · exact Except.noConfusion h
      · split at h
        · exact Except.noConfusion h
        · cases h
          exact ⟨rfl, rfl⟩

/-- Claim C10, witness: Signing an OWID that carried version 9 and the foreign
domain `"z"` with a signer for `"a"` rebinds it: the result carries
version 1 and domain `"a"`. -/
theorem claimC10_sign_sets_version_and_domain_witness :
    Signer.Sign c10Signer c10Owid c10mk = .ok c10Signed ∧
    c10Signed.version = owidVersion1 ∧ c10Signed.domain = c10Signer.domain :=
  ⟨rfl, claimC10_sign_sets_version_and_domain c10Signer c10Owid c10mk c10Signed rfl⟩

/-- Claim C1, evaluation at the failing input: A signer with one key signs an
OWID whose timestamp is minute 7 and whose target marshals to `[5, 6]`; the
`SignByteArray` handle echoes its input, so the stored signature is exactly
the byte sequence that was signed.  The call succeeds, yet the timestamp is
still 7 — `Signer.Sign` takes no clock input and never writes the field, in
conflict with its own doc comment ("updating the signature, timestamp, and
domain fields") — and the signed byte sequence is `MarshalOwid(target)`
alone, not `MarshalOwid(target) ∥ domain ∥ timestamp-u32` as the claim (and
the corrupt-domain/timestamp expectations of `TestOWIDByteArrayCorruptReplace`)
require. -/
theorem claimC1_sign_eval :
    Signer.Sign c1Signer c1Owid c1mk =
      .ok { version := owidVersion1, domain := [120], timeStamp := 7,
            signature := some [5, 6], target := .ok [5, 6] } ∧
    ([5, 6] : List Nat) ≠
      [5, 6] ++ c1Signer.domain ++ writeDateToUInt32 c1Owid.timeStamp := by
  exact ⟨rfl, by decide⟩

/-- Claim C8, evaluation at the failing input: With an empty store, a valid
terms URL and the five-character name `"hello"`, the registration handler
sets the name-length error and stores nothing — the condition
`len(m.Name) <= minNameLength` rejects length 5, although the handler's own
message says "Name must be between 5 and 40 characters".  The short name
`"hi"` is likewise rejected with the length error and no signer appears in
the store, and a six-character name is accepted and stored. -/
theorem claimC8_register_name_length :
    (HandlerRegister [] c8Host c8Name5 c8Terms c8ParseURI c8Key =
      (.page { name := c8Name5, nameError := some nameLengthMessage,
               termsURL := c8Terms, termsError := none, readOnly := false }, [])) ∧
    (HandlerRegister [] c8Host c8NameHi c8Terms c8ParseURI c8Key =
      (.page { name := c8NameHi, nameError := some nameLengthMessage,
               termsURL := c8Terms, termsError := none, readOnly := false }, [])) ∧
    (HandlerRegister [] c8Host c8Name6 c8Terms c8ParseURI c8Key =
      (.page { name := c8Name6, nameError := none, termsURL := c8Terms,
               termsError := none, readOnly := true },
       [(c8Host, { domain := c8Host, name := c8Name6, termsURL := c8Terms,
                   keys := [c8Key] })])) := by
  refine ⟨?_, ?_, ?_⟩ <;> rfl

/-! ## Helper lemmas for the binary codec -/

/-- Reading a null-terminated string recovers the bytes before the
terminator when none of them is null. -/
theorem readString_append (s r : List Nat) (h : 0 ∉ s) :
    readString (s ++ 0 :: r) = .ok (s, r) := by
  induction s with
  | nil => rfl
  | cons b bs ih =>
    have hb : ¬(b = 0) := fun hb => h (by simp [hb])
    have h' : 0 ∉ bs := fun hm => h (List.mem_cons_of_mem _ hm)
    simp [readString, hb, ih h', bind, Except.bind]

/-- Reading back a little-endian u32 recovers the value. -/
theorem readUint32_writeUint32 (n : Nat) (r : List Nat) (h : n < 4294967296) :
    readUint32 (writeUint32 n ++ r) = .ok (n, r) := by
  simp only [writeUint32, List.cons_append, List.nil_append, readUint32]
  have hv : n % 256 + 256 * (n / 256 % 256) + 65536 * (n / 65536 % 256) +
      16777216 * (n / 16777216 % 256) = n := by omega
  rw [hv]

/-- Reading a 64-byte signature recovers it exactly. -/
theorem readSignature_append (sig r : List Nat) (h : sig.length = 64) :
    readSignature (sig ++ r) = .ok (sig, r) := by
  have hle : signatureLength ≤ (sig ++ r).length := by simp [signatureLength, h]
  rw [readSignature, if_pos hle]
  have ht : (sig ++ r).take signatureLength = sig := by
    rw [signatureLength, ← h]
    exact List.take_left sig r
  have hd : (sig ++ r).drop signatureLength = r := by
    rw [signatureLength, ← h]
    exact List.drop_left sig r
  rw [ht, hd]

/-- Claim C5: For every signed OWID — version 1, a 64-byte signature, a
minute timestamp representable as a u32 and a domain free of embedded nulls
— the binary encoding succeeds, decoding that encoding consumes the whole
buffer and recovers version, domain, minute-quantized timestamp and all 64
signature bytes exactly, and `compare` accepts the decoded OWID as equal. -/
theorem claimC5_binary_round_trip :
    ∀ (o : OWID) (sig : List Nat),
      o.signature = some sig → sig.length = 64 →
      o.version = owidVersion1 →
      (0 : Int) ≤ o.timeStamp → o.timeStamp < 4294967296 →
      0 ∉ o.domain →
      o.MarshalBinary =
        .ok (o.version :: (o.domain ++ 0 :: (writeUint32 o.timeStamp.toNat ++ sig))) ∧
      FromByteArray
          (o.version :: (o.domain ++ 0 :: (writeUint32 o.timeStamp.toNat ++ sig)))
          o.target =
        .ok ({ version := o.version, domain := o.domain, timeStamp := o.timeStamp,
               signature := some sig, target := o.target }, []) ∧
      o.compare { version := o.version, domain := o.domain, timeStamp := o.timeStamp,
                  signature := some sig, target := o.target } = true := by
  intro o sig hsig hlen hver hts0 hts1 hdom
  have hmin : getDateInMinutes o.timeStamp = o.timeStamp.toNat := by
    unfold getDateInMinutes
    rw [Int.emod_eq_of_lt hts0 hts1]
  have hws : writeString o.domain = .ok (o.domain ++ [0]) := by
    simp [writeString, hdom]
  have htn : o.timeStamp.toNat < 4294967296 := by omega
  have hcast : ((o.timeStamp.toNat : Nat) : Int) = o.timeStamp :=
    Int.toNat_of_nonneg hts0
  have hrs : readSignature sig = .ok (sig, []) := by
    have := readSignature_append sig [] hlen
    simpa using this
  refine ⟨?_, ?_, ?_⟩
  · simp [OWID.MarshalBinary, OWID.ToBuffer, OWID.toBufferNoSignature, writeByte,
      writeDateToUInt32, hmin, hws, bind, Except.bind, hsig, writeSignature,
      signatureLength, hlen]
  · simp [FromByteArray, OWID.FromBuffer, readByte, bind, Except.bind, hver,
      owidVersion1, owidEmpty, emptyOwid, fromBufferV1, readDateFromUInt32,
      readString_append o.domain _ hdom, readUint32_writeUint32 _ _ htn, hrs, hcast]
  · simp [OWID.compare, OWID.GetTimeStampInMinutes, hsig]

/-- Claim C5, witness: The concrete signed OWID for domain `"a"` at minute 5
with a 64-byte signature round-trips byte-for-byte. -/
theorem claimC5_binary_round_trip_witness :
    c5Owid.MarshalBinary =
      .ok (c5Owid.version ::
        (c5Owid.domain ++ 0 :: (writeUint32 c5Owid.timeStamp.toNat ++ c5Sig))) ∧
    FromByteArray
        (c5Owid.version ::
          (c5Owid.domain ++ 0 :: (writeUint32 c5Owid.timeStamp.toNat ++ c5Sig)))
        c5Owid.target =
      .ok ({ version := c5Owid.version, domain := c5Owid.domain,
             timeStamp := c5Owid.timeStamp, signature := some c5Sig,
             target := c5Owid.target }, []) ∧
    c5Owid.compare
        { version := c5Owid.version, domain := c5Owid.domain,
          timeStamp := c5Owid.timeStamp, signature := some c5Sig,
          target := c5Owid.target } = true :=
  claimC5_binary_round_trip c5Owid c5Sig rfl (by decide) rfl (by decide) (by decide)
    (by decide)

/-! ## Helper lemmas for validation and the JSON codec -/

/-- A successful `Validate` certifies every field condition it checks. -/
theorem validate_ok_fields (o : OWID) (u : Unit) (h : o.Validate = .ok u) :
    o.signature ≠ none ∧ o.domain ≠ [] ∧ (0 : Int) ≤ o.timeStamp ∧
    owidVersionsList.contains o.version = true := by
  unfold OWID.Validate at h
  split_ifs at h with h1 h2 h3 h4
  exact ⟨h1, h2, by omega, h4⟩

/-- A successful run of the field-reading part forces domain, signature and
timestamp to be present with the right JSON type, returns an OWID carrying
the supplied version byte, and — through the re-validation — certifies the
validated field conditions. -/
theorem unmarshal_fields_ok_shape (ver : Nat) (j : JsonMap)
    (b64 : List Nat → Except String (List Nat)) (t : Target) (o : OWID)
    (h : unmarshalOwidFields ver j b64 t = .ok o) :
    (∃ d, j.domain = some (.str d)) ∧ (∃ s, j.signature = some (.str s)) ∧
    (∃ n, j.timestamp = some (.num n)) ∧ o.version = ver ∧
    o.signature.isSome = true ∧ o.domain ≠ [] ∧ (0 : Int) ≤ o.timeStamp ∧
    owidVersionsList.contains o.version = true := by
  obtain ⟨jv, jd, js, jt⟩ := j
  rcases jd with - | jdv
  · simp [unmarshalOwidFields, requireStr, bind, Except.bind] at h
  rcases jdv with n | d | -
  · simp [unmarshalOwidFields, requireStr, bind, Except.bind] at h
  case str =>
    rcases js with - | jsv
    · simp [unmarshalOwidFields, requireStr, bind, Except.bind] at h
    rcases jsv with n | s | -
    · simp [unmarshalOwidFields, requireStr, bind, Except.bind] at h
    case str =>
      cases hb : b64 s with
      | error e =>
        simp [unmarshalOwidFields, requireStr, requireNum, bind, Except.bind, hb] at h
      | ok sig =>
        rcases jt with - | jtv
        · simp [unmarshalOwidFields, requireStr, requireNum, bind, Except.bind, hb] at h
        rcases jtv with tn | ts | -
        case num =>
          cases hv : (owidOfJson ver d tn sig t).Validate with
          | error e =>
            simp [unmarshalOwidFields, requireStr, requireNum, bind, Except.bind,
              hb, hv] at h
          | ok u =>
            have ho : o = owidOfJson ver d tn sig t := by
              simp [unmarshalOwidFields, requireStr, requireNum, bind, Except.bind,
                hb, hv] at h
              exact h.symm
            obtain ⟨-, hdom, hts, hsup⟩ := validate_ok_fields _ u hv
            subst ho
            exact ⟨⟨d, rfl⟩, ⟨s, rfl⟩, ⟨tn, rfl⟩, rfl, rfl, hdom, hts, hsup⟩
        case str =>
          simp [unmarshalOwidFields, requireStr, requireNum, bind, Except.bind, hb] at h
        case other =>
          simp [unmarshalOwidFields, requireStr, requireNum, bind, Except.bind, hb] at h
    case other =>
      simp [unmarshalOwidFields, requireStr, bind, Except.bind] at h
  case other =>
    simp [unmarshalOwidFields, requireStr, bind, Except.bind] at h

/-- Claim C6: `UnmarshalJSON` fails whenever the domain, signature or
timestamp field is missing; on success, a missing version field has been
defaulted to 1 and the re-validation guarantees a present (non-nil)
signature, a non-empty domain, a timestamp not before the 2020 epoch and a
supported version. -/
theorem claimC6_unmarshal_json :
    ∀ (j : JsonMap) (b64 : List Nat → Except String (List Nat)) (t : Target),
      (j.domain = none ∨ j.signature = none ∨ j.timestamp = none →
        ∃ e, OWID.UnmarshalJSON j b64 t = .error e) ∧
      (∀ o, OWID.UnmarshalJSON j b64 t = .ok o →
        (j.version = none → o.version = owidVersion1) ∧
        o.signature.isSome = true ∧ o.domain ≠ [] ∧ (0 : Int) ≤ o.timeStamp ∧
        owidVersionsList.contains o.version = true) := by
  intro j b64 t
  constructor
  · intro hmiss
    cases hr : OWID.UnmarshalJSON j b64 t with
    | error e => exact ⟨e, rfl⟩
    | ok o =>
      rw [OWID.UnmarshalJSON] at hr
      obtain ⟨⟨d, hd⟩, ⟨s, hs⟩, ⟨n, hn⟩, -⟩ := unmarshal_fields_ok_shape _ j b64 t o hr
      rcases hmiss with h | h | h
      · rw [h] at hd; cases hd
      · rw [h] at hs; cases hs
      · rw [h] at hn; cases hn
  · intro o h
    rw [OWID.UnmarshalJSON] at h
    obtain ⟨-, -, -, hver, hsig, hdom, hts, hsup⟩ :=
      unmarshal_fields_ok_shape _ j b64 t o h
    refine ⟨?_, hsig, hdom, hts, hsup⟩
    intro hnone
    rw [hnone] at hver
    exact hver

/-- Claim C6, witness: A JSON object missing its domain fails to unmarshal; a
complete object with the version omitted unmarshals to an OWID with
version 1, a present signature, the non-empty domain `"a"`, timestamp
minute 3 and a supported version. -/
theorem claimC6_unmarshal_json_witness :
    (∃ e, OWID.UnmarshalJSON c6MissingDomain c6b64 (.ok []) = .error e) ∧
    ((c6Full.version = none → c6Decoded.version = owidVersion1) ∧
      c6Decoded.signature.isSome = true ∧ c6Decoded.domain ≠ [] ∧
      (0 : Int) ≤ c6Decoded.timeStamp ∧
      owidVersionsList.contains c6Decoded.version = true) :=
  ⟨(claimC6_unmarshal_json c6MissingDomain c6b64 (.ok [])).1 (Or.inl rfl),
   (claimC6_unmarshal_json c6Full c6b64 (.ok [])).2 c6Decoded (by decide)⟩

/-! ## Helper lemmas for the signature serialization -/

/-- Go `natToBE k` always produces exactly `k` bytes. -/
theorem natToBE_length : ∀ (k m : Nat), (natToBE k m).length = k
  | 0, _ => rfl
  | k + 1, m => by simp [natToBE, natToBE_length k]

/-- Appending one byte shifts the big-endian value by 256. -/
theorem fromBE_append_singleton (xs : List Nat) (b : Nat) :
    fromBE (xs ++ [b]) = fromBE xs * 256 + b := by
  simp [fromBE]

/-- The big-endian serialization is value-preserving below `256 ^ k`. -/
theorem fromBE_natToBE : ∀ (k m : Nat), m < 256 ^ k → fromBE (natToBE k m) = m
  | 0, m, h => by
    simp [natToBE, fromBE]
    omega
  | k + 1, m, h => by
    have hpow : 256 ^ (k + 1) = 256 ^ k * 256 := by ring
    have hdiv : m / 256 < 256 ^ k := by omega
    rw [natToBE, fromBE_append_singleton, fromBE_natToBE k (m / 256) hdiv]
    omega

/-- Every serialized byte is below 256. -/
theorem natToBE_mem_lt : ∀ (k m : Nat), ∀ b ∈ natToBE k m, b < 256
  | 0, m, b, hb => by simp [natToBE] at hb
  | k + 1, m, b, hb => by
    rw [natToBE] at hb
    rcases List.mem_append.mp hb with hb | hb
    · exact natToBE_mem_lt k (m / 256) b hb
    · have : b = m % 256 := by simpa using hb
      omega

set_option maxHeartbeats 1600000 in
/-- Claim C2: The P-256 base point satisfies the curve equation
`y² = x³ − 3x + b` over the P-256 field, the group order fits in 32 bytes,
and the modelled `SignByteArray` serialization of any ECDSA scalar pair
below the group order is exactly 64 bytes: a 32-byte big-endian `r` followed
by a 32-byte big-endian `s`, each left-padded with zeros to exactly 32
bytes, value-preserving, with every byte below 256. -/
theorem claimC2_p256_signature_format :
    p256OnCurve p256Gx p256Gy = true ∧
    p256n < 256 ^ 32 ∧
    ∀ (ecdsa : List Nat → Nat × Nat) (data : List Nat),
      (ecdsa data).1 < p256n → (ecdsa data).2 < p256n →
      (cryptoSignByteArray ecdsa data).length = 64 ∧
      (cryptoSignByteArray ecdsa data).take 32 = natToBE 32 (ecdsa data).1 ∧
      (cryptoSignByteArray ecdsa data).drop 32 = natToBE 32 (ecdsa data).2 ∧
      fromBE ((cryptoSignByteArray ecdsa data).take 32) = (ecdsa data).1 ∧
      fromBE ((cryptoSignByteArray ecdsa data).drop 32) = (ecdsa data).2 ∧
      ∀ b ∈ cryptoSignByteArray ecdsa data, b < 256 := by
  refine ⟨by decide, by decide, ?_⟩
  intro ecdsa data h1 h2
  have hbound : p256n < 256 ^ 32 := by decide
  have hr : (ecdsa data).1 < 256 ^ 32 := lt_trans h1 hbound
  have hs : (ecdsa data).2 < 256 ^ 32 := lt_trans h2 hbound
  have htakeGen : ∀ (xs ys : List Nat), xs.length = 32 → (xs ++ ys).take 32 = xs := by
    intro xs ys hxy
    rw [← hxy]
    exact List.take_left xs ys
  have hdropGen : ∀ (xs ys : List Nat), xs.length = 32 → (xs ++ ys).drop 32 = ys := by
    intro xs ys hxy
    rw [← hxy]
    exact List.drop_left xs ys
  have htake : (cryptoSignByteArray ecdsa data).take 32 = natToBE 32 (ecdsa data).1 := by
    unfold cryptoSignByteArray ecdsaSerializeSignature
    exact htakeGen _ _ (natToBE_length 32 _)
  have hdrop : (cryptoSignByteArray ecdsa data).drop 32 = natToBE 32 (ecdsa data).2 := by
    unfold cryptoSignByteArray ecdsaSerializeSignature
    exact hdropGen _ _ (natToBE_length 32 _)
  refine ⟨?_, htake, hdrop, ?_, ?_, ?_⟩
  · unfold cryptoSignByteArray ecdsaSerializeSignature
    simp [natToBE_length]
  · rw [htake]
    exact fromBE_natToBE 32 _ hr
  · rw [hdrop]
    exact fromBE_natToBE 32 _ hs
  · intro b hb
    unfold cryptoSignByteArray ecdsaSerializeSignature at hb
    rcases List.mem_append.mp hb with hb | hb
    · exact natToBE_mem_lt 32 _ b hb
    · exact natToBE_mem_lt 32 _ b hb

/-- Claim C2, witness: The serialization properties at the concrete scalar
pair `(1, 2)`. -/
theorem claimC2_p256_signature_format_witness :
    (cryptoSignByteArray c2ecdsa []).length = 64 ∧
    (cryptoSignByteArray c2ecdsa []).take 32 = natToBE 32 (c2ecdsa []).1 ∧
    (cryptoSignByteArray c2ecdsa []).drop 32 = natToBE 32 (c2ecdsa []).2 ∧
    fromBE ((cryptoSignByteArray c2ecdsa []).take 32) = (c2ecdsa []).1 ∧
    fromBE ((cryptoSignByteArray c2ecdsa []).drop 32) = (c2ecdsa []).2 ∧
    ∀ b ∈ cryptoSignByteArray c2ecdsa [], b < 256 :=
  claimC2_p256_signature_format.2.2 c2ecdsa [] (by decide) (by decide)

end OwidGo
